import Mathlib

/-!
Verification of the BEEFY light-client MMR-update ingestion engine
(`composable-ibc`, `src/src/lib.rs`) against its specification.

The embedding below translates the Rust source shallowly:
  * machine integers (`u32`, `u64`, `usize`) become `Nat`, with an explicit
    `% 2^32` where the source performs unchecked `u32` arithmetic that can
    overflow (Rust release-mode semantics wrap two's-complement);
  * byte strings (`Vec<u8>`, `H256`, addresses) become `List Nat`;
  * the external collaborator crates that the verifier calls into
    (keccak-256, secp256k1 recovery, `rs_merkle` proof verification,
    `pallet_mmr` leaf-proof verification, SCALE encoding) are abstracted as
    a `Host` record of deterministic oracle functions, exactly at the call
    boundaries the source uses;
  * the storage capability (`Self::Store`) becomes an explicit `StoreState`
    record threaded through the function, together with a `Faults` record
    saying which of the seven storage operations fail (each read/write in
    the source returns `Result` and is propagated with `?`).
-/

namespace Beefy

/-- Byte strings (`Vec<u8>`, `H256`, 20-byte addresses) are lists of bytes. -/
abbrev Bytes := List Nat

/-- Error enum of the light client (`error.rs` plus the two variants
`InvalidAuthorityProof` and `InvalidMmrProof` that `lib.rs` constructs). -/
inductive BeefyClientError where
  | StorageReadError
  | StorageWriteError
  | DecodingError
  | InvalidMmrUpdate
  | InvalidSignature
  | InvalidRootHash
  | InvalidAuthorityProof
  | InvalidMmrProof
deriving DecidableEq, Repr

/-- The type `BeefyNextAuthoritySet<H256> { id: u64, len: u32, root: H256 }`. -/
structure BeefyNextAuthoritySet where
  id : Nat
  len : Nat
  root : Bytes
deriving DecidableEq, Repr

/-- Modelled from the spec: `Commitment` (in `crate::primitives`, a module of
this repository that is not under `src/`): `payload` is an ordered list of
`(2-byte id, bytes)` pairs, `block_number : u32`, `validator_set_id : u64`. -/
structure Commitment where
  payload : List (Bytes × Bytes)
  block_number : Nat
  validator_set_id : Nat
deriving DecidableEq, Repr

/-- The type `SignedCommitment { commitment, signatures: Vec<Option<Vec<u8>>> }`. -/
structure SignedCommitment where
  commitment : Commitment
  signatures : List (Option Bytes)
deriving DecidableEq, Repr

/-- The type `MmrLeaf`: version, parent number and hash, the next authority set and the
parachain-heads root, SCALE-encoded for hashing (encoding abstracted in
`Host.encode_leaf`). -/
structure MmrLeaf where
  version : Nat
  parent_number_and_hash : Nat × Bytes
  beefy_next_authority_set : BeefyNextAuthoritySet
  parachain_heads : Bytes
deriving DecidableEq, Repr

/-- The type `MmrLeafWithIndex { leaf, index: u64 }`. -/
structure MmrLeafWithIndex where
  leaf : MmrLeaf
  index : Nat
deriving DecidableEq, Repr

/-- The type `MmrUpdateProof { signed_commitment, latest_mmr_leaf_with_index,
mmr_proof: Vec<H256>, authority_proof: Vec<H256> }`. -/
structure MmrUpdateProof where
  signed_commitment : SignedCommitment
  latest_mmr_leaf_with_index : MmrLeafWithIndex
  mmr_proof : List Bytes
  authority_proof : List Bytes
deriving DecidableEq, Repr

/-- Modelled from the spec: constant `HASH_LENGTH = 32` of
`crate::primitives`. -/
def HASH_LENGTH : Nat := 32

/-- Modelled from the spec: constant `SIGNATURE_LEN = 65` of
`crate::primitives`. -/
def SIGNATURE_LEN : Nat := 65

/-- Modelled from the spec: constant `MMR_ROOT_ID = b"mh" = [0x6D, 0x68]` of
`crate::primitives`. -/
def MMR_ROOT_ID : Bytes := [0x6D, 0x68]

/-- Modelled from the spec: `Payload::get_raw` as the spec describes it
("Find the entry with id `b"mh"` in `commitment.payload`"; "payload with two
`b"mh"` entries uses the first"): the value of the first entry whose id
matches. -/
def getRaw (payload : List (Bytes × Bytes)) (id : Bytes) : Option Bytes :=
  (payload.find? (fun p => p.1 = id)).map (fun p => p.2)

/-- The storage contents visible through `Self::Store`: the `MmrState`
fields (`latest_beefy_height`, `mmr_root_hash`) and the `AuthoritySet`
fields (`current_authorities`, `next_authorities`). -/
structure StoreState where
  latest_beefy_height : Nat
  mmr_root_hash : Bytes
  current_authority_set : BeefyNextAuthoritySet
  next_authority_set : BeefyNextAuthoritySet
deriving DecidableEq, Repr

/-- Which of the storage operations fail on this call.  Each getter/setter of
`Self::Store` returns a `Result` that `lib.rs` propagates with `?`; a failed
write leaves its own key unchanged. -/
structure Faults where
  read_current_fails : Bool
  read_next_fails : Bool
  read_height_fails : Bool
  write_height_fails : Bool
  write_root_fails : Bool
  write_current_fails : Bool
  write_next_fails : Bool
deriving DecidableEq, Repr

/-- The fault-free storage behaviour: every read and write succeeds. -/
def noFaults : Faults :=
  ⟨false, false, false, false, false, false, false⟩

/-- The type `pallet_mmr_primitives::DataOrHash`: a node carried either as full data
or as its hash. -/
inductive DataOrHash where
  | Data : Bytes → DataOrHash
  | Hash : Bytes → DataOrHash
deriving DecidableEq, Repr

/-- The type `pallet_mmr_primitives::Proof { leaf_index: u64, leaf_count: u64,
items: Vec<H256> }`. -/
structure MmrProof where
  leaf_index : Nat
  leaf_count : Nat
  items : List Bytes
deriving DecidableEq, Repr

/-- The external collaborators of `lib.rs`, abstracted as deterministic
oracles at exactly the call boundaries the source uses:
  * `keccak_256` — `sp_core_hashing::keccak_256`;
  * `recover_to_address sig msg` — the composition
    `crypto::secp256k1_ecdsa_recover_compressed(&sig, &msg)`, then
    `AuthorityId::from_slice(..).ok()`, then
    `beefy_mmr::BeefyEcdsaToEthereum::convert`; `none` when either the
    recovery or the `from_slice` step fails (both surface as
    `InvalidSignature` in the source);
  * `merkle_verify root indices leaves total_len` —
    `rs_merkle::MerkleProof::<KeccakHasher>::new(proof).verify(root,
    indices, leaves, total_len)`; the proof hashes are those of
    `mmr_update.authority_proof`, fixed per call by partially applying this
    field in `ingest_mmr_root_with_proof`;
  * `verify_leaf_proof hasher root node proof` —
    `pallet_mmr::verify_leaf_proof::<Keccak256, _>(root, node, proof)`,
    `true` for `Ok`; the source instantiates the hasher with keccak-256;
  * `encode_commitment` / `encode_leaf` — SCALE `Encode::encode`. -/
structure Host where
  keccak_256 : Bytes → Bytes
  recover_to_address : Bytes → Bytes → Option Bytes
  merkle_verify : List Bytes → Bytes → List Nat → List Bytes → Nat → Bool
  verify_leaf_proof : (Bytes → Bytes) → Bytes → DataOrHash → MmrProof → Bool
  encode_commitment : Commitment → Bytes
  encode_leaf : MmrLeaf → Bytes

/-- The function `authority_threshold` (lib.rs:199-201): `((2 * set.len) / 3) + 1` in
`u32` arithmetic; the doubling is unchecked, so it wraps modulo `2^32`
(Rust release-mode overflow semantics). -/
def authority_threshold (set : BeefyNextAuthoritySet) : Nat :=
  ((2 * set.len) % 2 ^ 32) / 3 + 1

/-- The function `validate_sigs_against_threshold` (lib.rs:203-206):
`sigs_len >= threshold as usize`. -/
def validate_sigs_against_threshold (set : BeefyNextAuthoritySet)
    (sigs_len : Nat) : Bool :=
  sigs_len ≥ authority_threshold set

/-- The collect step of the recovery pipeline (the
`.collect::<Result<Vec<_>, BeefyClientError>>()` of lib.rs:97-107):
left-to-right, short-circuiting on the first entry whose recovery (or
`from_slice` conversion) fails, with `InvalidSignature`. -/
def collectRecovered (h : Host) (commitment_hash : Bytes) :
    List (Nat × Bytes) → Except BeefyClientError (List (Nat × Bytes))
  | [] => Except.ok []
  | p :: rest =>
    match h.recover_to_address p.2 commitment_hash with
    | some addr =>
      match collectRecovered h commitment_hash rest with
      | Except.ok l => Except.ok ((p.1, addr) :: l)
      | Except.error e => Except.error e
    | none => Except.error BeefyClientError.InvalidSignature

/-- The filter step of the recovery pipeline (the `enumerate().filter_map`
of lib.rs:83-96): enumerate the signature slots and keep the `Some` entries
of raw length 65 with their positional index, dropping the others
silently. -/
def filterSignatures (signatures : List (Option Bytes)) : List (Nat × Bytes) :=
  signatures.enum.filterMap (fun item =>
    match item.2 with
    | some sig => if sig.length = SIGNATURE_LEN then some (item.1, sig) else none
    | none => none)

/-- The signature-recovery pipeline (lib.rs:80-107): enumerate the
signatures, keep the `Some` entries of raw length 65 (dropping the others
silently), then recover each to an Ethereum-style address, failing the whole
computation with `InvalidSignature` on the first entry whose recovery
fails. -/
def recover_authorities (h : Host) (commitment_hash : Bytes)
    (signatures : List (Option Bytes)) :
    Except BeefyClientError (List (Nat × Bytes)) :=
  collectRecovered h commitment_hash (filterSignatures signatures)

/-- The tail of `ingest_mmr_root_with_proof` after the authority-proof
section (lib.rs:152-195): the monotonicity gate, the MMR proof check and the
commit, with `authorities_changed` as computed by lines 109-150 and
`mmr_root_hash` the 32-byte payload value.  Factored out because the three
authority branches of the source fall through to this same suffix. -/
def ingestAfterAuthorities (h : Host) (mmr_update : MmrUpdateProof)
    (st : StoreState) (f : Faults) (mmr_root_hash : Bytes)
    (authorities_changed : Bool) :
    Except BeefyClientError Unit × StoreState :=
  if f.read_height_fails then (Except.error BeefyClientError.StorageReadError, st) else
  let latest_beefy_height := st.latest_beefy_height
  if mmr_update.signed_commitment.commitment.block_number ≤ latest_beefy_height then
    (Except.error BeefyClientError.InvalidMmrUpdate, st) else
  -- Move on to verify mmr_proof
  let proof : MmrProof :=
    { leaf_index := mmr_update.latest_mmr_leaf_with_index.index
      -- we treat this leaf as the latest leaf in the mmr
      leaf_count := mmr_update.latest_mmr_leaf_with_index.index + 1
      items := mmr_update.mmr_proof }
  let node := DataOrHash.Data (h.encode_leaf mmr_update.latest_mmr_leaf_with_index.leaf)
  if ¬ h.verify_leaf_proof h.keccak_256 mmr_root_hash node proof then
    (Except.error BeefyClientError.InvalidMmrProof, st) else
  if f.write_height_fails then (Except.error BeefyClientError.StorageWriteError, st) else
  let st1 := { st with
    latest_beefy_height := mmr_update.signed_commitment.commitment.block_number }
  if f.write_root_fails then (Except.error BeefyClientError.StorageWriteError, st1) else
  let st2 := { st1 with mmr_root_hash := mmr_root_hash }
  if authorities_changed then
    if f.write_current_fails then
      (Except.error BeefyClientError.StorageWriteError, st2) else
    let st3 := { st2 with current_authority_set := st.next_authority_set }
    if f.write_next_fails then
      (Except.error BeefyClientError.StorageWriteError, st3) else
    (Except.ok (),
      { st3 with next_authority_set :=
          mmr_update.latest_mmr_leaf_with_index.leaf.beefy_next_authority_set })
  else
    (Except.ok (), st2)

/-- The function `BeefyLightClient::ingest_mmr_root_with_proof` (lib.rs:44-196), with the
storage capability made explicit: the result is the returned
`Result<(), BeefyClientError>` paired with the storage contents after the
call (writes that happened before a failing write stay applied, exactly as
the `?`-propagation in the source leaves them). -/
def ingest_mmr_root_with_proof (h : Host) (mmr_update : MmrUpdateProof)
    (st : StoreState) (f : Faults) :
    Except BeefyClientError Unit × StoreState :=
  if f.read_current_fails then (Except.error BeefyClientError.StorageReadError, st) else
  let current_authority_set := st.current_authority_set
  if f.read_next_fails then (Except.error BeefyClientError.StorageReadError, st) else
  let next_authority_set := st.next_authority_set
  let signatures_len := mmr_update.signed_commitment.signatures.length
  let validator_set_id := mmr_update.signed_commitment.commitment.validator_set_id
  -- If signature threshold is not satisfied, return
  if ¬ validate_sigs_against_threshold current_authority_set signatures_len
      ∧ ¬ validate_sigs_against_threshold next_authority_set signatures_len then
    (Except.error BeefyClientError.InvalidMmrUpdate, st) else
  if current_authority_set.id ≠ validator_set_id
      ∧ next_authority_set.id ≠ validator_set_id then
    (Except.error BeefyClientError.InvalidMmrUpdate, st) else
  match getRaw mmr_update.signed_commitment.commitment.payload MMR_ROOT_ID with
  | none => (Except.error BeefyClientError.InvalidMmrUpdate, st)
  | some mmr_root_vec =>
    -- Return if mmr_root_hash is invalid
    if mmr_root_vec.length ≠ HASH_LENGTH then
      (Except.error BeefyClientError.InvalidRootHash, st) else
    let mmr_root_hash := mmr_root_vec
    -- Beefy validators sign the keccak_256 hash of the scale encoded commitment
    let encoded_commitment := h.encode_commitment mmr_update.signed_commitment.commitment
    let commitment_hash := h.keccak_256 encoded_commitment
    match recover_authorities h commitment_hash mmr_update.signed_commitment.signatures with
    | Except.error e => (Except.error e, st)
    | Except.ok authority_addresses_and_indices =>
      let authority_leaf_indices := authority_addresses_and_indices.map (fun x => x.1)
      let authority_leaves :=
        authority_addresses_and_indices.map (fun x => h.keccak_256 x.2)
      let merkle := h.merkle_verify mmr_update.authority_proof
      -- Verify mmr_update.authority_proof against store root hash
      if current_authority_set.id = validator_set_id then
        if ¬ merkle current_authority_set.root authority_leaf_indices authority_leaves
            current_authority_set.len then
          (Except.error BeefyClientError.InvalidAuthorityProof, st)
        else
          ingestAfterAuthorities h mmr_update st f mmr_root_hash false
      else if next_authority_set.id = validator_set_id then
        if ¬ merkle next_authority_set.root authority_leaf_indices authority_leaves
            next_authority_set.len then
          (Except.error BeefyClientError.InvalidAuthorityProof, st)
        else
          ingestAfterAuthorities h mmr_update st f mmr_root_hash true
      else
        ingestAfterAuthorities h mmr_update st f mmr_root_hash false

/-- The possible runs of the post-authority tail (lib.rs:152-195), one
constructor per control path: each constructor records the guard values
that select the path and the returned `(Result, storage)` pair.  Used to
state determinism: any two runs from identical inputs coincide. -/
inductive TailRun (h : Host) (u : MmrUpdateProof) (st : StoreState)
    (f : Faults) (root : Bytes) (changed : Bool) :
    Except BeefyClientError Unit × StoreState → Prop where
  | readHeightFail :
      f.read_height_fails = true →
      TailRun h u st f root changed
        (Except.error BeefyClientError.StorageReadError, st)
  | staleHeight :
      f.read_height_fails = false →
      u.signed_commitment.commitment.block_number ≤ st.latest_beefy_height →
      TailRun h u st f root changed
        (Except.error BeefyClientError.InvalidMmrUpdate, st)
  | mmrProofFail :
      f.read_height_fails = false →
      st.latest_beefy_height < u.signed_commitment.commitment.block_number →
      h.verify_leaf_proof h.keccak_256 root
        (DataOrHash.Data (h.encode_leaf u.latest_mmr_leaf_with_index.leaf))
        ⟨u.latest_mmr_leaf_with_index.index,
         u.latest_mmr_leaf_with_index.index + 1, u.mmr_proof⟩ = false →
      TailRun h u st f root changed
        (Except.error BeefyClientError.InvalidMmrProof, st)
  | writeHeightFail :
      f.read_height_fails = false →
      st.latest_beefy_height < u.signed_commitment.commitment.block_number →
      h.verify_leaf_proof h.keccak_256 root
        (DataOrHash.Data (h.encode_leaf u.latest_mmr_leaf_with_index.leaf))
        ⟨u.latest_mmr_leaf_with_index.index,
         u.latest_mmr_leaf_with_index.index + 1, u.mmr_proof⟩ = true →
      f.write_height_fails = true →
      TailRun h u st f root changed
        (Except.error BeefyClientError.StorageWriteError, st)
  | writeRootFail :
      f.read_height_fails = false →
      st.latest_beefy_height < u.signed_commitment.commitment.block_number →
      h.verify_leaf_proof h.keccak_256 root
        (DataOrHash.Data (h.encode_leaf u.latest_mmr_leaf_with_index.leaf))
        ⟨u.latest_mmr_leaf_with_index.index,
         u.latest_mmr_leaf_with_index.index + 1, u.mmr_proof⟩ = true →
      f.write_height_fails = false →
      f.write_root_fails = true →
      TailRun h u st f root changed
        (Except.error BeefyClientError.StorageWriteError,
         ⟨u.signed_commitment.commitment.block_number, st.mmr_root_hash,
          st.current_authority_set, st.next_authority_set⟩)
  | commitNoRotation :
      f.read_height_fails = false →
      st.latest_beefy_height < u.signed_commitment.commitment.block_number →
      h.verify_leaf_proof h.keccak_256 root
        (DataOrHash.Data (h.encode_leaf u.latest_mmr_leaf_with_index.leaf))
        ⟨u.latest_mmr_leaf_with_index.index,
         u.latest_mmr_leaf_with_index.index + 1, u.mmr_proof⟩ = true →
      f.write_height_fails = false →
      f.write_root_fails = false →
      changed = false →
      TailRun h u st f root changed
        (Except.ok (),
         ⟨u.signed_commitment.commitment.block_number, root,
          st.current_authority_set, st.next_authority_set⟩)
  | writeCurrentFail :
      f.read_height_fails = false →
      st.latest_beefy_height < u.signed_commitment.commitment.block_number →
      h.verify_leaf_proof h.keccak_256 root
        (DataOrHash.Data (h.encode_leaf u.latest_mmr_leaf_with_index.leaf))
        ⟨u.latest_mmr_leaf_with_index.index,
         u.latest_mmr_leaf_with_index.index + 1, u.mmr_proof⟩ = true →
      f.write_height_fails = false →
      f.write_root_fails = false →
      changed = true →
      f.write_current_fails = true →
      TailRun h u st f root changed
        (Except.error BeefyClientError.StorageWriteError,
         ⟨u.signed_commitment.commitment.block_number, root,
          st.current_authority_set, st.next_authority_set⟩)
  | writeNextFail :
      f.read_height_fails = false →
      st.latest_beefy_height < u.signed_commitment.commitment.block_number →
      h.verify_leaf_proof h.keccak_256 root
        (DataOrHash.Data (h.encode_leaf u.latest_mmr_leaf_with_index.leaf))
        ⟨u.latest_mmr_leaf_with_index.index,
         u.latest_mmr_leaf_with_index.index + 1, u.mmr_proof⟩ = true →
      f.write_height_fails = false →
      f.write_root_fails = false →
      changed = true →
      f.write_current_fails = false →
      f.write_next_fails = true →
      TailRun h u st f root changed
        (Except.error BeefyClientError.StorageWriteError,
         ⟨u.signed_commitment.commitment.block_number, root,
          st.next_authority_set, st.next_authority_set⟩)
  | commitRotation :
      f.read_height_fails = false →
      st.latest_beefy_height < u.signed_commitment.commitment.block_number →
      h.verify_leaf_proof h.keccak_256 root
        (DataOrHash.Data (h.encode_leaf u.latest_mmr_leaf_with_index.leaf))
        ⟨u.latest_mmr_leaf_with_index.index,
         u.latest_mmr_leaf_with_index.index + 1, u.mmr_proof⟩ = true →
      f.write_height_fails = false →
      f.write_root_fails = false →
      changed = true →
      f.write_current_fails = false →
      f.write_next_fails = false →
      TailRun h u st f root changed
        (Except.ok (),
         ⟨u.signed_commitment.commitment.block_number, root,
          st.next_authority_set,
          u.latest_mmr_leaf_with_index.leaf.beefy_next_authority_set⟩)

/-- The possible runs of `ingest_mmr_root_with_proof` (lib.rs:44-196), one
constructor per control path of the main phase, dispatching to `TailRun`
for the post-authority tail.  Each constructor records the guard values the
source inspects on that path. -/
inductive IngestRun (h : Host) (u : MmrUpdateProof) (st : StoreState)
    (f : Faults) : Except BeefyClientError Unit × StoreState → Prop where
  | readCurrentFail :
      f.read_current_fails = true →
      IngestRun h u st f (Except.error BeefyClientError.StorageReadError, st)
  | readNextFail :
      f.read_current_fails = false →
      f.read_next_fails = true →
      IngestRun h u st f (Except.error BeefyClientError.StorageReadError, st)
  | thresholdFail :
      f.read_current_fails = false →
      f.read_next_fails = false →
      validate_sigs_against_threshold st.current_authority_set
        u.signed_commitment.signatures.length = false →
      validate_sigs_against_threshold st.next_authority_set
        u.signed_commitment.signatures.length = false →
      IngestRun h u st f (Except.error BeefyClientError.InvalidMmrUpdate, st)
  | validatorSetIdFail :
      f.read_current_fails = false →
      f.read_next_fails = false →
      (validate_sigs_against_threshold st.current_authority_set
          u.signed_commitment.signatures.length = true ∨
        validate_sigs_against_threshold st.next_authority_set
          u.signed_commitment.signatures.length = true) →
      st.current_authority_set.id ≠
        u.signed_commitment.commitment.validator_set_id →
      st.next_authority_set.id ≠
        u.signed_commitment.commitment.validator_set_id →
      IngestRun h u st f (Except.error BeefyClientError.InvalidMmrUpdate, st)
  | payloadMissing :
      f.read_current_fails = false →
      f.read_next_fails = false →
      (validate_sigs_against_threshold st.current_authority_set
          u.signed_commitment.signatures.length = true ∨
        validate_sigs_against_threshold st.next_authority_set
          u.signed_commitment.signatures.length = true) →
      ¬(st.current_authority_set.id ≠
          u.signed_commitment.commitment.validator_set_id ∧
        st.next_authority_set.id ≠
          u.signed_commitment.commitment.validator_set_id) →
      getRaw u.signed_commitment.commitment.payload MMR_ROOT_ID = none →
      IngestRun h u st f (Except.error BeefyClientError.InvalidMmrUpdate, st)
  | rootLenFail (v : Bytes) :
      f.read_current_fails = false →
      f.read_next_fails = false →
      (validate_sigs_against_threshold st.current_authority_set
          u.signed_commitment.signatures.length = true ∨
        validate_sigs_against_threshold st.next_authority_set
          u.signed_commitment.signatures.length = true) →
      ¬(st.current_authority_set.id ≠
          u.signed_commitment.commitment.validator_set_id ∧
        st.next_authority_set.id ≠
          u.signed_commitment.commitment.validator_set_id) →
      getRaw u.signed_commitment.commitment.payload MMR_ROOT_ID = some v →
      v.length ≠ HASH_LENGTH →
      IngestRun h u st f (Except.error BeefyClientError.InvalidRootHash, st)
  | recoverFail (v : Bytes) (e : BeefyClientError) :
      f.read_current_fails = false →
      f.read_next_fails = false →
      (validate_sigs_against_threshold st.current_authority_set
          u.signed_commitment.signatures.length = true ∨
        validate_sigs_against_threshold st.next_authority_set
          u.signed_commitment.signatures.length = true) →
      ¬(st.current_authority_set.id ≠
          u.signed_commitment.commitment.validator_set_id ∧
        st.next_authority_set.id ≠
          u.signed_commitment.commitment.validator_set_id) →
      getRaw u.signed_commitment.commitment.payload MMR_ROOT_ID = some v →
      v.length = HASH_LENGTH →
      recover_authorities h
        (h.keccak_256 (h.encode_commitment u.signed_commitment.commitment))
        u.signed_commitment.signatures = Except.error e →
      IngestRun h u st f (Except.error e, st)
  | authCurrentFail (v : Bytes) (l : List (Nat × Bytes)) :
      f.read_current_fails = false →
      f.read_next_fails = false →
      (validate_sigs_against_threshold st.current_authority_set
          u.signed_commitment.signatures.length = true ∨
        validate_sigs_against_threshold st.next_authority_set
          u.signed_commitment.signatures.length = true) →
      getRaw u.signed_commitment.commitment.payload MMR_ROOT_ID = some v →
      v.length = HASH_LENGTH →
      recover_authorities h
        (h.keccak_256 (h.encode_commitment u.signed_commitment.commitment))
        u.signed_commitment.signatures = Except.ok l →
      st.current_authority_set.id =
        u.signed_commitment.commitment.validator_set_id →
      h.merkle_verify u.authority_proof st.current_authority_set.root
        (l.map (fun x => x.1)) (l.map (fun x => h.keccak_256 x.2))
        st.current_authority_set.len = false →
      IngestRun h u st f
        (Except.error BeefyClientError.InvalidAuthorityProof, st)
  | authCurrentOk (v : Bytes) (l : List (Nat × Bytes))
      (out : Except BeefyClientError Unit × StoreState) :
      f.read_current_fails = false →
      f.read_next_fails = false →
      (validate_sigs_against_threshold st.current_authority_set
          u.signed_commitment.signatures.length = true ∨
        validate_sigs_against_threshold st.next_authority_set
          u.signed_commitment.signatures.length = true) →
      getRaw u.signed_commitment.commitment.payload MMR_ROOT_ID = some v →
      v.length = HASH_LENGTH →
      recover_authorities h
        (h.keccak_256 (h.encode_commitment u.signed_commitment.commitment))
        u.signed_commitment.signatures = Except.ok l →
      st.current_authority_set.id =
        u.signed_commitment.commitment.validator_set_id →
      h.merkle_verify u.authority_proof st.current_authority_set.root
        (l.map (fun x => x.1)) (l.map (fun x => h.keccak_256 x.2))
        st.current_authority_set.len = true →
      TailRun h u st f v false out →
      IngestRun h u st f out
  | authNextFail (v : Bytes) (l : List (Nat × Bytes)) :
      f.read_current_fails = false →
      f.read_next_fails = false →
      (validate_sigs_against_threshold st.current_authority_set
          u.signed_commitment.signatures.length = true ∨
        validate_sigs_against_threshold st.next_authority_set
          u.signed_commitment.signatures.length = true) →
      getRaw u.signed_commitment.commitment.payload MMR_ROOT_ID = some v →
      v.length = HASH_LENGTH →
      recover_authorities h
        (h.keccak_256 (h.encode_commitment u.signed_commitment.commitment))
        u.signed_commitment.signatures = Except.ok l →
      st.current_authority_set.id ≠
        u.signed_commitment.commitment.validator_set_id →
      st.next_authority_set.id =
        u.signed_commitment.commitment.validator_set_id →
      h.merkle_verify u.authority_proof st.next_authority_set.root
        (l.map (fun x => x.1)) (l.map (fun x => h.keccak_256 x.2))
        st.next_authority_set.len = false →
      IngestRun h u st f
        (Except.error BeefyClientError.InvalidAuthorityProof, st)
  | authNextOk (v : Bytes) (l : List (Nat × Bytes))
      (out : Except BeefyClientError Unit × StoreState) :
      f.read_current_fails = false →
      f.read_next_fails = false →
      (validate_sigs_against_threshold st.current_authority_set
          u.signed_commitment.signatures.length = true ∨
        validate_sigs_against_threshold st.next_authority_set
          u.signed_commitment.signatures.length = true) →
      getRaw u.signed_commitment.commitment.payload MMR_ROOT_ID = some v →
      v.length = HASH_LENGTH →
      recover_authorities h
        (h.keccak_256 (h.encode_commitment u.signed_commitment.commitment))
        u.signed_commitment.signatures = Except.ok l →
      st.current_authority_set.id ≠
        u.signed_commitment.commitment.validator_set_id →
      st.next_authority_set.id =
        u.signed_commitment.commitment.validator_set_id →
      h.merkle_verify u.authority_proof st.next_authority_set.root
        (l.map (fun x => x.1)) (l.map (fun x => h.keccak_256 x.2))
        st.next_authority_set.len = true →
      TailRun h u st f v true out →
      IngestRun h u st f out

/-! ### Concrete fixtures for witnesses and counterexamples -/

/-- A deterministic host whose oracles accept everything: hashes are zero,
recovery always yields the zero address, and both proof verifiers return
`true`.  Used to drive concrete executions through chosen control paths. -/
def trivialHost : Host where
  keccak_256 := fun _ => List.replicate 32 0
  recover_to_address := fun _ _ => some (List.replicate 20 0)
  merkle_verify := fun _ _ _ _ _ => true
  verify_leaf_proof := fun _ _ _ _ => true
  encode_commitment := fun _ => []
  encode_leaf := fun _ => []

/-- Like `trivialHost` but with an MMR leaf-proof verifier that rejects
everything. -/
def rejectMmrHost : Host :=
  { trivialHost with verify_leaf_proof := fun _ _ _ _ => false }

/-- A 32-byte all-zero hash value. -/
def zeros32 : Bytes := List.replicate 32 0

/-- A current authority set with id 0 and no members (threshold 1). -/
def set0 : BeefyNextAuthoritySet := ⟨0, 0, zeros32⟩

/-- A next authority set with id 1 and no members (threshold 1). -/
def set1 : BeefyNextAuthoritySet := ⟨1, 0, zeros32⟩

/-- A pre-call storage snapshot at height 0 tracking `set0`/`set1`. -/
def st0 : StoreState := ⟨0, zeros32, set0, set1⟩

/-- A tiny MMR leaf carrying the next authority set with id 2. -/
def leaf0 : MmrLeaf := ⟨0, (0, zeros32), ⟨2, 0, zeros32⟩, zeros32⟩

/-- An update at block 1 for validator set 0 whose payload carries the
32-byte MMR root `[1, 1, ..., 1]`, with one `none` signature slot. -/
def u0 : MmrUpdateProof :=
  ⟨⟨⟨[(MMR_ROOT_ID, List.replicate 32 1)], 1, 0⟩, [none]⟩, ⟨leaf0, 0⟩, [], []⟩

/-- An update whose signatures sequence is empty: `n = 0` is below every
threshold (thresholds are at least 1). -/
def uNoSigs : MmrUpdateProof :=
  ⟨⟨⟨[(MMR_ROOT_ID, List.replicate 32 1)], 1, 0⟩, []⟩, ⟨leaf0, 0⟩, [], []⟩

/-- A fault pattern where only the `set_latest_mmr_root_hash` write fails. -/
def fWriteRootFails : Faults := ⟨false, false, false, false, true, false, false⟩

/-- A pre-call state like `st0` but whose stored height 5 already exceeds
the block number of `u0`. -/
def stHigh : StoreState := ⟨5, zeros32, set0, set1⟩

/-- An update whose `validator_set_id` (9) matches neither `set0` (0) nor
`set1` (1). -/
def uBadVsid : MmrUpdateProof :=
  ⟨⟨⟨[(MMR_ROOT_ID, List.replicate 32 1)], 1, 9⟩, [none]⟩, ⟨leaf0, 0⟩, [], []⟩

/-- A degenerate pair of stored sets that share the id 5 (violating the
`next.id = current.id + 1` invariant, which the code never checks). -/
def set5a : BeefyNextAuthoritySet := ⟨5, 0, zeros32⟩

/-- The stored next set with the same id 5 but different content. -/
def set5b : BeefyNextAuthoritySet := ⟨5, 0, List.replicate 32 2⟩

/-- A snapshot tracking the degenerate pair `set5a`/`set5b`. -/
def st5 : StoreState := ⟨0, zeros32, set5a, set5b⟩

/-- An update for validator set 5, matching both stored ids. -/
def u5 : MmrUpdateProof :=
  ⟨⟨⟨[(MMR_ROOT_ID, List.replicate 32 1)], 1, 5⟩, [none]⟩, ⟨leaf0, 0⟩, [], []⟩

/-- An update like `u0` but with no `b"mh"` payload entry. -/
def uNoPayload : MmrUpdateProof :=
  ⟨⟨⟨[], 1, 0⟩, [none]⟩, ⟨leaf0, 0⟩, [], []⟩

/-- An update like `u0` whose `b"mh"` payload value has 31 bytes. -/
def uShortRoot : MmrUpdateProof :=
  ⟨⟨⟨[(MMR_ROOT_ID, List.replicate 31 1)], 1, 0⟩, [none]⟩, ⟨leaf0, 0⟩, [], []⟩

/-- A host that recovers no signature at all. -/
def rejectRecoverHost : Host :=
  { trivialHost with recover_to_address := fun _ _ => none }

/-- An update like `u0` but carrying one 64-byte (wrong-length) signature. -/
def uShortSig : MmrUpdateProof :=
  ⟨⟨⟨[(MMR_ROOT_ID, List.replicate 32 1)], 1, 0⟩,
    [some (List.replicate 64 7)]⟩, ⟨leaf0, 0⟩, [], []⟩

/-- An update like `u0` but carrying one 65-byte signature. -/
def uFullSig : MmrUpdateProof :=
  ⟨⟨⟨[(MMR_ROOT_ID, List.replicate 32 1)], 1, 0⟩,
    [some (List.replicate 65 7)]⟩, ⟨leaf0, 0⟩, [], []⟩

/-! ### Generic lemmas about the embedded definitions -/

lemma validate_sigs_against_threshold_eq_true_iff (set : BeefyNextAuthoritySet)
    (n : Nat) :
    validate_sigs_against_threshold set n = true ↔ authority_threshold set ≤ n := by
  simp [validate_sigs_against_threshold, ge_iff_le]

/-- Any error exit of the post-authority tail other than a storage-write
failure returns the storage untouched. -/
lemma ingestAfterAuthorities_error_state (h : Host) (u : MmrUpdateProof)
    (st : StoreState) (f : Faults) (root : Bytes) (changed : Bool)
    (e : BeefyClientError) (st' : StoreState)
    (H : ingestAfterAuthorities h u st f root changed = (Except.error e, st'))
    (hw : e ≠ BeefyClientError.StorageWriteError) : st' = st := by
  simp only [ingestAfterAuthorities] at H
  split_ifs at H <;> simp_all

/-- Inversion of a successful run of the post-authority tail: the height
read succeeded, the block number strictly exceeds the stored height, the
MMR leaf proof (at `leaf_count = index + 1`) verified, all reached writes
succeeded, and the final state is exactly the committed one. -/
lemma ingestAfterAuthorities_ok_inversion (h : Host) (u : MmrUpdateProof)
    (st : StoreState) (f : Faults) (root : Bytes) (changed : Bool)
    (st' : StoreState)
    (H : ingestAfterAuthorities h u st f root changed = (Except.ok (), st')) :
    f.read_height_fails = false ∧
    st.latest_beefy_height < u.signed_commitment.commitment.block_number ∧
    h.verify_leaf_proof h.keccak_256 root
      (DataOrHash.Data (h.encode_leaf u.latest_mmr_leaf_with_index.leaf))
      ⟨u.latest_mmr_leaf_with_index.index,
       u.latest_mmr_leaf_with_index.index + 1, u.mmr_proof⟩ = true ∧
    f.write_height_fails = false ∧ f.write_root_fails = false ∧
    (changed = false →
      st' = { st with
        latest_beefy_height := u.signed_commitment.commitment.block_number,
        mmr_root_hash := root }) ∧
    (changed = true →
      f.write_current_fails = false ∧ f.write_next_fails = false ∧
      st' = { latest_beefy_height := u.signed_commitment.commitment.block_number,
              mmr_root_hash := root,
              current_authority_set := st.next_authority_set,
              next_authority_set :=
                u.latest_mmr_leaf_with_index.leaf.beefy_next_authority_set }) := by
  simp only [ingestAfterAuthorities] at H
  split_ifs at H <;> simp_all [Nat.not_le]

/-- Evaluation of the post-authority tail when the block number is stale:
the height read succeeds and the monotonicity gate rejects. -/
lemma ingestAfterAuthorities_stale (h : Host) (u : MmrUpdateProof)
    (st : StoreState) (f : Faults) (root : Bytes) (changed : Bool)
    (hrh : f.read_height_fails = false)
    (hbn : u.signed_commitment.commitment.block_number ≤ st.latest_beefy_height) :
    ingestAfterAuthorities h u st f root changed =
      (Except.error BeefyClientError.InvalidMmrUpdate, st) := by
  unfold ingestAfterAuthorities
  rw [hrh]
  simp only [Bool.false_eq_true, if_false]
  rw [if_pos hbn]

/-- If some kept entry fails to recover, the collect step returns
`InvalidSignature` (whichever position fails first, the error value is the
same). -/
lemma collectRecovered_error_of_mem (h : Host) (ch : Bytes)
    (L : List (Nat × Bytes))
    (hex : ∃ p ∈ L, h.recover_to_address p.2 ch = none) :
    collectRecovered h ch L = Except.error BeefyClientError.InvalidSignature := by
  induction L with
  | nil =>
    obtain ⟨p, hp, _⟩ := hex
    exact absurd hp (List.not_mem_nil p)
  | cons q L ih =>
    obtain ⟨p, hp, hnone⟩ := hex
    rcases List.mem_cons.mp hp with rfl | hp'
    · simp [collectRecovered, hnone]
    · cases hq : h.recover_to_address q.2 ch with
      | none => simp [collectRecovered, hq]
      | some addr => simp [collectRecovered, hq, ih ⟨p, hp', hnone⟩]

/-- The collect step succeeds exactly when every kept entry recovers, and
then the output pairs each kept `(index, signature)` with
`(index, recovered address)`, in order. -/
lemma collectRecovered_ok_iff (h : Host) (ch : Bytes) :
    ∀ (L : List (Nat × Bytes)) (out : List (Nat × Bytes)),
      collectRecovered h ch L = Except.ok out ↔
        List.Forall₂ (fun p q => p.1 = q.1 ∧
          h.recover_to_address p.2 ch = some q.2) L out := by
  intro L
  induction L with
  | nil =>
    intro out
    simp [collectRecovered, List.forall₂_nil_left_iff, eq_comm]
  | cons p L ih =>
    intro out
    cases hq : h.recover_to_address p.2 ch with
    | none => simp [collectRecovered, hq, List.forall₂_cons_left_iff]
    | some addr =>
      cases hL : collectRecovered h ch L with
      | error e => simp [collectRecovered, hq, hL, List.forall₂_cons_left_iff, ← ih]
      | ok l =>
        simp only [collectRecovered, hq, hL, Except.ok.injEq,
          List.forall₂_cons_left_iff, ← ih]
        constructor
        · rintro rfl
          exact ⟨(p.1, addr), l, ⟨rfl, rfl⟩, rfl, rfl⟩
        · rintro ⟨b, u, ⟨hb1, hb2⟩, hu, rfl⟩
          subst hu
          obtain ⟨b1, b2⟩ := b
          obtain rfl := Option.some.inj hb2
          simp only at hb1
          rw [hb1]

/-- Replacing a kept-out (wrong-length) `Some` entry by `None` does not
change the filtered list, for any enumeration base. -/
lemma filterSignatures_aux (s : Bytes) (hslen : s.length ≠ SIGNATURE_LEN) :
    ∀ (sigs : List (Option Bytes)) (j k : Nat), sigs[j]? = some (some s) →
      ((sigs.set j none).enumFrom k).filterMap (fun item =>
        match item.2 with
        | some sig => if sig.length = SIGNATURE_LEN then some (item.1, sig) else none
        | none => none) =
      (sigs.enumFrom k).filterMap (fun item =>
        match item.2 with
        | some sig => if sig.length = SIGNATURE_LEN then some (item.1, sig) else none
        | none => none) := by
  intro sigs
  induction sigs with
  | nil =>
    intro j k hj
    simp at hj
  | cons a tl ih =>
    intro j k hj
    cases j with
    | zero =>
      have ha : a = some s := by simpa using hj
      subst ha
      simp [List.enumFrom, hslen]
    | succ j' =>
      have hj' : tl[j']? = some (some s) := by simpa using hj
      simp only [List.set_cons_succ, List.enumFrom, List.filterMap_cons]
      rw [ih j' (k + 1) hj']

/-- A `Some` entry whose raw length is not 65 is dropped silently: the
filtered list is the same as if the entry were `None`. -/
lemma filterSignatures_set_none (sigs : List (Option Bytes)) (j : Nat)
    (s : Bytes) (hj : sigs[j]? = some (some s))
    (hslen : s.length ≠ SIGNATURE_LEN) :
    filterSignatures (sigs.set j none) = filterSignatures sigs := by
  simp only [filterSignatures, List.enum]
  exact filterSignatures_aux s hslen sigs j 0 hj

/-- Every kept entry of the filtered list is a 65-byte `Some` slot of the
original sequence, sitting at its original positional index. -/
lemma filterSignatures_mem_aux :
    ∀ (sigs : List (Option Bytes)) (k : Nat) (p : Nat × Bytes),
      p ∈ (sigs.enumFrom k).filterMap (fun item =>
        match item.2 with
        | some sig => if sig.length = SIGNATURE_LEN then some (item.1, sig) else none
        | none => none) →
      k ≤ p.1 ∧ sigs[p.1 - k]? = some (some p.2) ∧
        p.2.length = SIGNATURE_LEN := by
  intro sigs
  induction sigs with
  | nil =>
    intro k p hp
    simp [List.enumFrom] at hp
  | cons a tl ih =>
    intro k p hp
    simp only [List.enumFrom, List.filterMap_cons] at hp
    cases a with
    | none =>
      obtain ⟨hk, hget, hlen⟩ := ih (k + 1) p (by simpa using hp)
      refine ⟨by omega, ?_, hlen⟩
      have hidx : p.1 - k = (p.1 - (k + 1)) + 1 := by omega
      rw [hidx]
      simpa using hget
    | some sig =>
      by_cases hs : sig.length = SIGNATURE_LEN
      · simp only [hs, if_true] at hp
        rcases List.mem_cons.mp hp with rfl | hp'
        · exact ⟨Nat.le_refl _, by simp, hs⟩
        · obtain ⟨hk, hget, hlen⟩ := ih (k + 1) p hp'
          refine ⟨by omega, ?_, hlen⟩
          have hidx : p.1 - k = (p.1 - (k + 1)) + 1 := by omega
          rw [hidx]
          simpa using hget
      · simp only [hs, if_false] at hp
        obtain ⟨hk, hget, hlen⟩ := ih (k + 1) p (by simpa using hp)
        refine ⟨by omega, ?_, hlen⟩
        have hidx : p.1 - k = (p.1 - (k + 1)) + 1 := by omega
        rw [hidx]
        simpa using hget

/-- Evaluation of the main phase: when both storage reads succeed, the
threshold gate and the validator-set-id gate pass, the payload carries a
32-byte root, every signature recovers, and the authority Merkle branch
taken by the source verifies, the ingest reduces to the post-authority
tail with the payload root and the branch's `authorities_changed` flag. -/
lemma ingest_eq_tail (h : Host) (u : MmrUpdateProof) (st : StoreState)
    (f : Faults) (root : Bytes) (l : List (Nat × Bytes)) (changed : Bool)
    (hc : f.read_current_fails = false) (hn : f.read_next_fails = false)
    (hgate : validate_sigs_against_threshold st.current_authority_set
        u.signed_commitment.signatures.length = true ∨
      validate_sigs_against_threshold st.next_authority_set
        u.signed_commitment.signatures.length = true)
    (hroot : getRaw u.signed_commitment.commitment.payload MMR_ROOT_ID = some root)
    (hlen : root.length = HASH_LENGTH)
    (hrec : recover_authorities h
        (h.keccak_256 (h.encode_commitment u.signed_commitment.commitment))
        u.signed_commitment.signatures = Except.ok l)
    (hbranch :
      (st.current_authority_set.id = u.signed_commitment.commitment.validator_set_id ∧
        h.merkle_verify u.authority_proof st.current_authority_set.root
          (l.map (fun x => x.1)) (l.map (fun x => h.keccak_256 x.2))
          st.current_authority_set.len = true ∧ changed = false) ∨
      (st.current_authority_set.id ≠ u.signed_commitment.commitment.validator_set_id ∧
        st.next_authority_set.id = u.signed_commitment.commitment.validator_set_id ∧
        h.merkle_verify u.authority_proof st.next_authority_set.root
          (l.map (fun x => x.1)) (l.map (fun x => h.keccak_256 x.2))
          st.next_authority_set.len = true ∧ changed = true)) :
    ingest_mmr_root_with_proof h u st f =
      ingestAfterAuthorities h u st f root changed := by
  rcases hbranch with ⟨hid, hmerkle, hchanged⟩ | ⟨hid, hid2, hmerkle, hchanged⟩
  · rcases hgate with hv | hv <;>
      simp [ingest_mmr_root_with_proof, hc, hn, hv, hid, hroot, hlen, hrec,
        hmerkle, hchanged]
  · rcases hgate with hv | hv <;>
      simp [ingest_mmr_root_with_proof, hc, hn, hv, hid, hid2, hroot, hlen,
        hrec, hmerkle, hchanged]

/-- Every `TailRun` derivation computes exactly the value of the
post-authority tail. -/
lemma TailRun_eq {h : Host} {u : MmrUpdateProof} {st : StoreState}
    {f : Faults} {root : Bytes} {changed : Bool}
    {out : Except BeefyClientError Unit × StoreState}
    (H : TailRun h u st f root changed out) :
    ingestAfterAuthorities h u st f root changed = out := by
  cases H with
  | readHeightFail h1 => simp [ingestAfterAuthorities, h1]
  | staleHeight h1 h2 => simp [ingestAfterAuthorities, h1, h2]
  | mmrProofFail h1 h2 h3 =>
    simp [ingestAfterAuthorities, h1, Nat.not_le.mpr h2, h3]
  | writeHeightFail h1 h2 h3 h4 =>
    simp [ingestAfterAuthorities, h1, Nat.not_le.mpr h2, h3, h4]
  | writeRootFail h1 h2 h3 h4 h5 =>
    simp [ingestAfterAuthorities, h1, Nat.not_le.mpr h2, h3, h4, h5]
  | commitNoRotation h1 h2 h3 h4 h5 h6 =>
    simp [ingestAfterAuthorities, h1, Nat.not_le.mpr h2, h3, h4, h5, h6]
  | writeCurrentFail h1 h2 h3 h4 h5 h6 h7 =>
    simp [ingestAfterAuthorities, h1, Nat.not_le.mpr h2, h3, h4, h5, h6, h7]
  | writeNextFail h1 h2 h3 h4 h5 h6 h7 h8 =>
    simp [ingestAfterAuthorities, h1, Nat.not_le.mpr h2, h3, h4, h5, h6, h7, h8]
  | commitRotation h1 h2 h3 h4 h5 h6 h7 h8 =>
    simp [ingestAfterAuthorities, h1, Nat.not_le.mpr h2, h3, h4, h5, h6, h7, h8]

/-- Every `IngestRun` derivation computes exactly the value of
`ingest_mmr_root_with_proof`. -/
lemma IngestRun_eq {h : Host} {u : MmrUpdateProof} {st : StoreState}
    {f : Faults} {out : Except BeefyClientError Unit × StoreState}
    (H : IngestRun h u st f out) :
    ingest_mmr_root_with_proof h u st f = out := by
  cases H with
  | readCurrentFail h1 => simp [ingest_mmr_root_with_proof, h1]
  | readNextFail h1 h2 => simp [ingest_mmr_root_with_proof, h1, h2]
  | thresholdFail h1 h2 h3 h4 =>
    simp [ingest_mmr_root_with_proof, h1, h2, h3, h4]
  | validatorSetIdFail h1 h2 h3 h4 h5 =>
    rcases h3 with hv | hv <;>
      simp [ingest_mmr_root_with_proof, h1, h2, hv, h4, h5]
  | payloadMissing h1 h2 h3 h4 h5 =>
    rcases h3 with hv | hv <;>
      simp [ingest_mmr_root_with_proof, h1, h2, hv, h4, h5]
  | rootLenFail v h1 h2 h3 h4 h5 h6 =>
    rcases h3 with hv | hv <;>
      simp [ingest_mmr_root_with_proof, h1, h2, hv, h4, h5, h6]
  | recoverFail v e h1 h2 h3 h4 h5 h6 h7 =>
    rcases h3 with hv | hv <;>
      simp [ingest_mmr_root_with_proof, h1, h2, hv, h4, h5, h6, h7]
  | authCurrentFail v l h1 h2 h3 h4 h5 h6 h7 h8 =>
    rcases h3 with hv | hv <;>
      simp [ingest_mmr_root_with_proof, h1, h2, hv, h4, h5, h6, h7, h8]
  | authCurrentOk v l out h1 h2 h3 h4 h5 h6 h7 h8 htail =>
    rw [ingest_eq_tail h u st f v l false h1 h2 h3 h4 h5 h6
      (Or.inl ⟨h7, h8, rfl⟩)]
    exact TailRun_eq htail
  | authNextFail v l h1 h2 h3 h4 h5 h6 h7 h8 h9 =>
    rcases h3 with hv | hv <;>
      simp [ingest_mmr_root_with_proof, h1, h2, hv, h4, h5, h6, h7, h8, h9]
  | authNextOk v l out h1 h2 h3 h4 h5 h6 h7 h8 h9 htail =>
    rw [ingest_eq_tail h u st f v l true h1 h2 h3 h4 h5 h6
      (Or.inr ⟨h7, h8, h9, rfl⟩)]
    exact TailRun_eq htail

/-- Inversion of a successful ingest: both authority reads succeeded, the
threshold and validator-set-id gates passed, the payload carried a 32-byte
root, signature recovery succeeded, the authority Merkle branch chosen by
the source verified (fixing `authorities_changed`), and the run finished
through the post-authority tail with the payload root. -/
lemma ingest_ok_inversion (h : Host) (u : MmrUpdateProof) (st : StoreState)
    (f : Faults) (st' : StoreState)
    (H : ingest_mmr_root_with_proof h u st f = (Except.ok (), st')) :
    f.read_current_fails = false ∧ f.read_next_fails = false ∧
    (validate_sigs_against_threshold st.current_authority_set
        u.signed_commitment.signatures.length = true ∨
      validate_sigs_against_threshold st.next_authority_set
        u.signed_commitment.signatures.length = true) ∧
    ∃ root l changed,
      getRaw u.signed_commitment.commitment.payload MMR_ROOT_ID = some root ∧
      root.length = HASH_LENGTH ∧
      recover_authorities h
        (h.keccak_256 (h.encode_commitment u.signed_commitment.commitment))
        u.signed_commitment.signatures = Except.ok l ∧
      ((st.current_authority_set.id = u.signed_commitment.commitment.validator_set_id ∧
          h.merkle_verify u.authority_proof st.current_authority_set.root
            (l.map (fun x => x.1)) (l.map (fun x => h.keccak_256 x.2))
            st.current_authority_set.len = true ∧ changed = false) ∨
        (st.current_authority_set.id ≠ u.signed_commitment.commitment.validator_set_id ∧
          st.next_authority_set.id = u.signed_commitment.commitment.validator_set_id ∧
          h.merkle_verify u.authority_proof st.next_authority_set.root
            (l.map (fun x => x.1)) (l.map (fun x => h.keccak_256 x.2))
            st.next_authority_set.len = true ∧ changed = true)) ∧
      ingestAfterAuthorities h u st f root changed = (Except.ok (), st') := by
  simp only [ingest_mmr_root_with_proof] at H
  split_ifs at H with h1 h2 h3 h4 h5 h6
  any_goals exact Except.noConfusion (congrArg Prod.fst H)
  · try simp only [Bool.not_eq_true] at h1 h2
    refine ⟨h1, h2, by tauto, ?_⟩
    split at H
    any_goals exact Except.noConfusion (congrArg Prod.fst H)
    rename_i root hro
    split_ifs at H with h7
    any_goals exact Except.noConfusion (congrArg Prod.fst H)
    try simp only [ne_eq, not_not] at h7
    split at H
    any_goals exact Except.noConfusion (congrArg Prod.fst H)
    rename_i l hre
    split_ifs at H with h8
    any_goals exact Except.noConfusion (congrArg Prod.fst H)
    try rw [not_not] at h8
    exact ⟨root, l, false, hro, h7, hre, Or.inl ⟨h5, h8, rfl⟩, H⟩
  · try simp only [Bool.not_eq_true] at h1 h2
    refine ⟨h1, h2, by tauto, ?_⟩
    split at H
    any_goals exact Except.noConfusion (congrArg Prod.fst H)
    rename_i root hro
    split_ifs at H with h7
    any_goals exact Except.noConfusion (congrArg Prod.fst H)
    try simp only [ne_eq, not_not] at h7
    split at H
    any_goals exact Except.noConfusion (congrArg Prod.fst H)
    rename_i l hre
    split_ifs at H with h8
    any_goals exact Except.noConfusion (congrArg Prod.fst H)
    try rw [not_not] at h8
    exact ⟨root, l, true, hro, h7, hre, Or.inr ⟨h5, h6, h8, rfl⟩, H⟩
  · exact absurd ⟨h5, h6⟩ h4

/-! ### Claim theorems -/

/-- Claim C10: `authority_threshold` doubles `set.len` in unchecked `u32`
arithmetic.  For every `len ≤ 2^31 - 1` the result is exactly
`⌊2·len/3⌋ + 1`; for every `len` with `2^31 ≤ len < 2^32` the doubling wraps
modulo `2^32` and the result is strictly below (hence different from)
`⌊2·len/3⌋ + 1`. -/
theorem authority_threshold_wraps (set : BeefyNextAuthoritySet) :
    (set.len ≤ 2 ^ 31 - 1 → authority_threshold set = 2 * set.len / 3 + 1) ∧
    (2 ^ 31 ≤ set.len → set.len < 2 ^ 32 →
      authority_threshold set < 2 * set.len / 3 + 1 ∧
      authority_threshold set ≠ 2 * set.len / 3 + 1) := by
  constructor
  · intro hle
    have hlt : 2 * set.len < 2 ^ 32 := by omega
    rw [authority_threshold, Nat.mod_eq_of_lt hlt]
  · intro hlo hhi
    have hsub : (2 * set.len) % 2 ^ 32 = 2 * set.len - 2 ^ 32 := by
      have h1 : 2 * set.len - 2 ^ 32 < 2 ^ 32 := by omega
      have h2 : 2 ^ 32 ≤ 2 * set.len := by omega
      rw [Nat.mod_eq_sub_mod h2, Nat.mod_eq_of_lt h1]
    have hlt : authority_threshold set < 2 * set.len / 3 + 1 := by
      have hstep : (2 * set.len - 2 ^ 32) / 3 + 1 = (2 * set.len - 2 ^ 32 + 3) / 3 := by
        rw [Nat.add_div_right]
        omega
      have hmono : (2 * set.len - 2 ^ 32 + 3) / 3 ≤ 2 * set.len / 3 :=
        Nat.div_le_div_right (by omega)
      calc authority_threshold set = (2 * set.len - 2 ^ 32) / 3 + 1 := by
            rw [authority_threshold, hsub]
        _ = (2 * set.len - 2 ^ 32 + 3) / 3 := hstep
        _ ≤ 2 * set.len / 3 := hmono
        _ < 2 * set.len / 3 + 1 := Nat.lt_succ_self _
    exact ⟨hlt, Nat.ne_of_lt hlt⟩

/-- Witness for C10 at concrete inputs: a set of length `4` (below the wrap
bound) gets threshold `⌊8/3⌋ + 1 = 3`, and a set of length `2^31` wraps. -/
theorem authority_threshold_wraps_witness :
    authority_threshold ⟨0, 4, []⟩ = 2 * 4 / 3 + 1 ∧
    authority_threshold ⟨0, 2 ^ 31, []⟩ ≠ 2 * 2 ^ 31 / 3 + 1 :=
  ⟨(authority_threshold_wraps ⟨0, 4, []⟩).1 (by norm_num),
   ((authority_threshold_wraps ⟨0, 2 ^ 31, []⟩).2 (by norm_num) (by norm_num)).2⟩

/-- Claim C2: with `n` the full length of the signatures sequence, the
threshold gate of `ingest_mmr_root_with_proof` rejects with
`InvalidMmrUpdate` when `n` is below both `authority_threshold`s, and the
gate condition `validate_sigs_against_threshold` passes exactly when
`n ≥ threshold`; in particular `n = threshold(current)` passes, and
`n = threshold(current) - 1` together with `n < threshold(next)` rejects. -/
theorem ingest_threshold_gate (h : Host) (u : MmrUpdateProof) (st : StoreState)
    (f : Faults) (n : Nat)
    (hc : f.read_current_fails = false) (hn : f.read_next_fails = false)
    (hlen : n = u.signed_commitment.signatures.length) :
    (n < authority_threshold st.current_authority_set →
      n < authority_threshold st.next_authority_set →
      ingest_mmr_root_with_proof h u st f =
        (Except.error BeefyClientError.InvalidMmrUpdate, st)) ∧
    (∀ set : BeefyNextAuthoritySet,
      validate_sigs_against_threshold set n = true ↔ authority_threshold set ≤ n) ∧
    (n = authority_threshold st.current_authority_set →
      validate_sigs_against_threshold st.current_authority_set n = true) ∧
    (n + 1 = authority_threshold st.current_authority_set →
      n < authority_threshold st.next_authority_set →
      ingest_mmr_root_with_proof h u st f =
        (Except.error BeefyClientError.InvalidMmrUpdate, st)) := by
  have hreject : n < authority_threshold st.current_authority_set →
      n < authority_threshold st.next_authority_set →
      ingest_mmr_root_with_proof h u st f =
        (Except.error BeefyClientError.InvalidMmrUpdate, st) := by
    intro h1 h2
    rw [ingest_mmr_root_with_proof, hc, hn]
    simp only [Bool.false_eq_true, if_false]
    rw [if_pos]
    constructor <;>
      simp [validate_sigs_against_threshold, ← hlen] <;> omega
  refine ⟨hreject, ?_, ?_, ?_⟩
  · intro set
    exact validate_sigs_against_threshold_eq_true_iff set n
  · intro heq
    rw [validate_sigs_against_threshold_eq_true_iff]
    omega
  · intro h1 h2
    exact hreject (by omega) h2

/-- Witness for C2 at a concrete input: with `st0` (both thresholds 1) an
update carrying zero signature slots is rejected with `InvalidMmrUpdate`,
and the boundary value `n = threshold(current) = 1` passes the gate. -/
theorem ingest_threshold_gate_witness :
    ingest_mmr_root_with_proof trivialHost uNoSigs st0 noFaults =
      (Except.error BeefyClientError.InvalidMmrUpdate, st0) ∧
    validate_sigs_against_threshold st0.current_authority_set 1 = true :=
  ⟨(ingest_threshold_gate trivialHost uNoSigs st0 noFaults 0 rfl rfl rfl).1
      (by decide) (by decide),
   (ingest_threshold_gate trivialHost u0 st0 noFaults 1 rfl rfl rfl).2.2.1
      (by decide)⟩

/-- Claim C1 (amended): every failed ingest that does not fail on a
storage *write* leaves the stored `(MmrState, AuthoritySet)` byte-identical
to their pre-call snapshot.  (A storage-write failure during the commit can
leave partial state behind: the source issues up to four separate writes
and propagates the first failing one, keeping the earlier writes; see the
counterexample.) -/
theorem ingest_error_preserves_state (h : Host) (u : MmrUpdateProof)
    (st : StoreState) (f : Faults) (e : BeefyClientError) (st' : StoreState)
    (H : ingest_mmr_root_with_proof h u st f = (Except.error e, st'))
    (hw : e ≠ BeefyClientError.StorageWriteError) : st' = st := by
  simp only [ingest_mmr_root_with_proof] at H
  split_ifs at H with h1 h2 h3 h4 h5 h6
  any_goals (simp only [Prod.mk.injEq] at H; exact H.2.symm)
  · split at H
    · simp only [Prod.mk.injEq] at H
      exact H.2.symm
    rename_i root hro
    split_ifs at H with h7
    any_goals (simp only [Prod.mk.injEq] at H; exact H.2.symm)
    split at H
    · simp only [Prod.mk.injEq] at H
      exact H.2.symm
    rename_i l hre
    split_ifs at H with h8
    any_goals (simp only [Prod.mk.injEq] at H; exact H.2.symm)
    exact ingestAfterAuthorities_error_state h u st f root false e st' H hw
  · split at H
    · simp only [Prod.mk.injEq] at H
      exact H.2.symm
    rename_i root hro
    split_ifs at H with h7
    any_goals (simp only [Prod.mk.injEq] at H; exact H.2.symm)
    split at H
    · simp only [Prod.mk.injEq] at H
      exact H.2.symm
    rename_i l hre
    split_ifs at H with h8
    any_goals (simp only [Prod.mk.injEq] at H; exact H.2.symm)
    exact ingestAfterAuthorities_error_state h u st f root true e st' H hw
  · exact absurd ⟨h5, h6⟩ h4

/-- Witness for the amended C1: a concrete failed ingest (threshold
rejection) whose post-call storage equals the pre-call snapshot. -/
theorem ingest_error_preserves_state_witness :
    (ingest_mmr_root_with_proof trivialHost uNoSigs st0 noFaults).2 = st0 :=
  ingest_error_preserves_state trivialHost uNoSigs st0 noFaults
    BeefyClientError.InvalidMmrUpdate
    (ingest_mmr_root_with_proof trivialHost uNoSigs st0 noFaults).2
    rfl (by decide)

/-- Counterexample to C1 as stated: with a store whose
`set_latest_mmr_root_hash` write fails, the ingest of `u0` from `st0`
returns an error, yet the stored `MmrState` is no longer byte-identical to
the pre-call snapshot — the height write that preceded the failing write
remains applied (partial state). -/
theorem ingest_error_partial_state_counterexample :
    (ingest_mmr_root_with_proof trivialHost u0 st0 fWriteRootFails).1 =
      Except.error BeefyClientError.StorageWriteError ∧
    (ingest_mmr_root_with_proof trivialHost u0 st0 fWriteRootFails).2 ≠ st0 ∧
    (ingest_mmr_root_with_proof trivialHost u0 st0
        fWriteRootFails).2.latest_beefy_height = 1 ∧
    st0.latest_beefy_height = 0 := by
  refine ⟨rfl, by decide, rfl, rfl⟩

/-- Claim C3: a successful ingest sets `latest_beefy_height` to the
commitment's block number, which strictly exceeds the pre-call height; and
for any pre-state with the same authority sets whose stored height is at
least that block number (in particular, equal to it), the same update is
rejected with `InvalidMmrUpdate`.  Hence `latest_beefy_height` strictly
increases across every successful ingest. -/
theorem latest_beefy_height_strictly_increases (h : Host)
    (u : MmrUpdateProof) (st : StoreState) (f : Faults) (st' : StoreState)
    (H : ingest_mmr_root_with_proof h u st f = (Except.ok (), st')) :
    st'.latest_beefy_height = u.signed_commitment.commitment.block_number ∧
    st.latest_beefy_height < u.signed_commitment.commitment.block_number ∧
    ∀ st2 : StoreState,
      st2.current_authority_set = st.current_authority_set →
      st2.next_authority_set = st.next_authority_set →
      u.signed_commitment.commitment.block_number ≤ st2.latest_beefy_height →
      ingest_mmr_root_with_proof h u st2 f =
        (Except.error BeefyClientError.InvalidMmrUpdate, st2) := by
  obtain ⟨hc, hn, hgate, root, l, changed, hro, hlen, hre, hbranch, Htail⟩ :=
    ingest_ok_inversion h u st f st' H
  obtain ⟨hrh, hlt, hmmr, hwh, hwr, hfalse, htrue⟩ :=
    ingestAfterAuthorities_ok_inversion h u st f root changed st' Htail
  refine ⟨?_, hlt, ?_⟩
  · cases hch : changed
    · rw [hfalse hch]
    · rw [(htrue hch).2.2]
  · intro st2 hcur2 hnext2 hbn2
    have heval := ingest_eq_tail h u st2 f root l changed hc hn
      (by rw [hcur2, hnext2]; exact hgate) hro hlen hre
      (by rw [hcur2, hnext2]; exact hbranch)
    rw [heval]
    exact ingestAfterAuthorities_stale h u st2 f root changed hrh hbn2

/-- Witness for C3: the concrete successful ingest of `u0` from `st0`
advances the height from 0 to 1, and re-ingesting from a state at height 5
(same authority sets) is rejected with `InvalidMmrUpdate`. -/
theorem latest_beefy_height_strictly_increases_witness :
    (⟨1, List.replicate 32 1, set0, set1⟩ : StoreState).latest_beefy_height = 1 ∧
    st0.latest_beefy_height < 1 ∧
    ingest_mmr_root_with_proof trivialHost u0 stHigh noFaults =
      (Except.error BeefyClientError.InvalidMmrUpdate, stHigh) := by
  obtain ⟨ha, hb, hrest⟩ := latest_beefy_height_strictly_increases trivialHost
    u0 st0 noFaults ⟨1, List.replicate 32 1, set0, set1⟩ rfl
  exact ⟨ha, hb, hrest stHigh rfl rfl (by decide)⟩

/-- Claim C4: validator-set selection.  If the update's `validator_set_id`
matches neither stored set id, the ingest rejects with `InvalidMmrUpdate`
(both when the threshold gate passes — lib.rs:57-60 — and when it fails,
where the same error is produced).  When it matches `current.id`, the
authority Merkle proof is checked against current's root and len and no
rotation is marked (`authorities_changed` stays `false`) — this branch is
taken first, so `current` is preferred even if `next.id` coincides; when it
matches only `next.id`, the proof is checked against next's root and len
and rotation is marked. -/
theorem ingest_validator_set_selection (h : Host) (u : MmrUpdateProof)
    (st : StoreState) (f : Faults)
    (hc : f.read_current_fails = false) (hn : f.read_next_fails = false) :
    (st.current_authority_set.id ≠ u.signed_commitment.commitment.validator_set_id →
      st.next_authority_set.id ≠ u.signed_commitment.commitment.validator_set_id →
      ingest_mmr_root_with_proof h u st f =
        (Except.error BeefyClientError.InvalidMmrUpdate, st)) ∧
    ∀ root l,
      (validate_sigs_against_threshold st.current_authority_set
          u.signed_commitment.signatures.length = true ∨
        validate_sigs_against_threshold st.next_authority_set
          u.signed_commitment.signatures.length = true) →
      getRaw u.signed_commitment.commitment.payload MMR_ROOT_ID = some root →
      root.length = HASH_LENGTH →
      recover_authorities h
        (h.keccak_256 (h.encode_commitment u.signed_commitment.commitment))
        u.signed_commitment.signatures = Except.ok l →
      (st.current_authority_set.id = u.signed_commitment.commitment.validator_set_id →
        (h.merkle_verify u.authority_proof st.current_authority_set.root
            (l.map (fun x => x.1)) (l.map (fun x => h.keccak_256 x.2))
            st.current_authority_set.len = false →
          ingest_mmr_root_with_proof h u st f =
            (Except.error BeefyClientError.InvalidAuthorityProof, st)) ∧
        (h.merkle_verify u.authority_proof st.current_authority_set.root
            (l.map (fun x => x.1)) (l.map (fun x => h.keccak_256 x.2))
            st.current_authority_set.len = true →
          ingest_mmr_root_with_proof h u st f =
            ingestAfterAuthorities h u st f root false)) ∧
      (st.current_authority_set.id ≠ u.signed_commitment.commitment.validator_set_id →
        st.next_authority_set.id = u.signed_commitment.commitment.validator_set_id →
        (h.merkle_verify u.authority_proof st.next_authority_set.root
            (l.map (fun x => x.1)) (l.map (fun x => h.keccak_256 x.2))
            st.next_authority_set.len = false →
          ingest_mmr_root_with_proof h u st f =
            (Except.error BeefyClientError.InvalidAuthorityProof, st)) ∧
        (h.merkle_verify u.authority_proof st.next_authority_set.root
            (l.map (fun x => x.1)) (l.map (fun x => h.keccak_256 x.2))
            st.next_authority_set.len = true →
          ingest_mmr_root_with_proof h u st f =
            ingestAfterAuthorities h u st f root true)) := by
  constructor
  · intro hne1 hne2
    simp [ingest_mmr_root_with_proof, hc, hn, hne1, hne2]
  · intro root l hgate hro hlen hre
    refine ⟨fun hid => ⟨fun hmf => ?_, fun hmt => ?_⟩,
      fun hne hid2 => ⟨fun hmf => ?_, fun hmt => ?_⟩⟩
    · rcases hgate with hv | hv <;>
        simp [ingest_mmr_root_with_proof, hc, hn, hv, hid, hro, hlen, hre, hmf]
    · exact ingest_eq_tail h u st f root l false hc hn hgate hro hlen hre
        (Or.inl ⟨hid, hmt, rfl⟩)
    · rcases hgate with hv | hv <;>
        simp [ingest_mmr_root_with_proof, hc, hn, hv, hne, hid2, hro, hlen,
          hre, hmf]
    · exact ingest_eq_tail h u st f root l true hc hn hgate hro hlen hre
        (Or.inr ⟨hne, hid2, hmt, rfl⟩)

/-- Witness for C4: the mismatching id 9 is rejected with
`InvalidMmrUpdate`, and for `u0` (id matching `current`) the run proceeds
to the tail with no rotation marked. -/
theorem ingest_validator_set_selection_witness :
    ingest_mmr_root_with_proof trivialHost uBadVsid st0 noFaults =
      (Except.error BeefyClientError.InvalidMmrUpdate, st0) ∧
    ingest_mmr_root_with_proof trivialHost u0 st0 noFaults =
      ingestAfterAuthorities trivialHost u0 st0 noFaults
        (List.replicate 32 1) false :=
  ⟨(ingest_validator_set_selection trivialHost uBadVsid st0 noFaults rfl rfl).1
      (by decide) (by decide),
   (((ingest_validator_set_selection trivialHost u0 st0 noFaults rfl rfl).2
      (List.replicate 32 1) [] (Or.inl (by decide)) rfl rfl rfl).1 rfl).2 rfl⟩

/-- Claim C6 (amended): on a successful ingest the stored `MmrState`
becomes `{ latest_beefy_height := block_number, mmr_root_hash := payload
value }`, and the `AuthoritySet` is rewritten to
`{ current := old next, next := leaf.beefy_next_authority_set }` exactly
when the update's `validator_set_id` misses `current.id` and equals
`next.id`; otherwise (including the defensive case where it equals both)
the authority-set storage is left untouched. -/
theorem ingest_success_frame (h : Host) (u : MmrUpdateProof)
    (st : StoreState) (f : Faults) (st' : StoreState)
    (H : ingest_mmr_root_with_proof h u st f = (Except.ok (), st')) :
    ∃ root,
      getRaw u.signed_commitment.commitment.payload MMR_ROOT_ID = some root ∧
      root.length = HASH_LENGTH ∧
      st' = if st.current_authority_set.id ≠
                u.signed_commitment.commitment.validator_set_id ∧
              st.next_authority_set.id =
                u.signed_commitment.commitment.validator_set_id
        then ⟨u.signed_commitment.commitment.block_number, root,
              st.next_authority_set,
              u.latest_mmr_leaf_with_index.leaf.beefy_next_authority_set⟩
        else ⟨u.signed_commitment.commitment.block_number, root,
              st.current_authority_set, st.next_authority_set⟩ := by
  obtain ⟨hc, hn, hgate, root, l, changed, hro, hlen, hre, hbranch, Htail⟩ :=
    ingest_ok_inversion h u st f st' H
  obtain ⟨hrh, hlt, hmmr, hwh, hwr, hfalse, htrue⟩ :=
    ingestAfterAuthorities_ok_inversion h u st f root changed st' Htail
  refine ⟨root, hro, hlen, ?_⟩
  rcases hbranch with ⟨hid, _, hch⟩ | ⟨hne, hid2, _, hch⟩
  · rw [if_neg (fun hcontra => hcontra.1 hid), hfalse hch]
  · rw [if_pos ⟨hne, hid2⟩, (htrue hch).2.2]

/-- Witness for the amended C6: the concrete successful ingest of `u0`
from `st0` (id matches `current`) produces exactly the non-rotated
post-state. -/
theorem ingest_success_frame_witness :
    ∃ root,
      getRaw u0.signed_commitment.commitment.payload MMR_ROOT_ID = some root ∧
      root.length = HASH_LENGTH ∧
      (⟨1, List.replicate 32 1, set0, set1⟩ : StoreState) =
        if st0.current_authority_set.id ≠
              u0.signed_commitment.commitment.validator_set_id ∧
            st0.next_authority_set.id =
              u0.signed_commitment.commitment.validator_set_id
          then ⟨u0.signed_commitment.commitment.block_number, root,
                st0.next_authority_set,
                u0.latest_mmr_leaf_with_index.leaf.beefy_next_authority_set⟩
          else ⟨u0.signed_commitment.commitment.block_number, root,
                st0.current_authority_set, st0.next_authority_set⟩ :=
  ingest_success_frame trivialHost u0 st0 noFaults
    ⟨1, List.replicate 32 1, set0, set1⟩ rfl

/-- Counterexample to C6 as stated: a successful ingest whose
`validator_set_id` equals `next.id` (it also equals `current.id`, and the
code prefers `current`), after which the authority-set storage is NOT
rewritten — `current` is left untouched rather than replaced by the old
`next`.  So "rewritten exactly when validator_set_id equals next.id" fails;
the rotation condition also requires missing `current.id`. -/
theorem ingest_rotation_counterexample :
    (ingest_mmr_root_with_proof trivialHost u5 st5 noFaults).1 = Except.ok () ∧
    u5.signed_commitment.commitment.validator_set_id =
      st5.next_authority_set.id ∧
    (ingest_mmr_root_with_proof trivialHost u5 st5
        noFaults).2.current_authority_set ≠ st5.next_authority_set ∧
    (ingest_mmr_root_with_proof trivialHost u5 st5
        noFaults).2.current_authority_set = st5.current_authority_set ∧
    (ingest_mmr_root_with_proof trivialHost u5 st5
        noFaults).2.next_authority_set = st5.next_authority_set :=
  ⟨rfl, rfl, by decide, rfl, rfl⟩

/-- Claim C7: payload extraction (lib.rs:62-74).  With the reads and the
two earlier gates passing: a payload with no `b"mh"` entry rejects with
`InvalidMmrUpdate`; an entry whose value is not exactly 32 bytes rejects
with `InvalidRootHash`; and on success the stored `mmr_root_hash` is
exactly the 32-byte payload value. -/
theorem ingest_payload_extraction (h : Host) (u : MmrUpdateProof)
    (st : StoreState) (f : Faults)
    (hc : f.read_current_fails = false) (hn : f.read_next_fails = false)
    (hgate : validate_sigs_against_threshold st.current_authority_set
        u.signed_commitment.signatures.length = true ∨
      validate_sigs_against_threshold st.next_authority_set
        u.signed_commitment.signatures.length = true)
    (hvsid : ¬(st.current_authority_set.id ≠
        u.signed_commitment.commitment.validator_set_id ∧
      st.next_authority_set.id ≠
        u.signed_commitment.commitment.validator_set_id)) :
    (getRaw u.signed_commitment.commitment.payload MMR_ROOT_ID = none →
      ingest_mmr_root_with_proof h u st f =
        (Except.error BeefyClientError.InvalidMmrUpdate, st)) ∧
    (∀ v, getRaw u.signed_commitment.commitment.payload MMR_ROOT_ID = some v →
      v.length ≠ HASH_LENGTH →
      ingest_mmr_root_with_proof h u st f =
        (Except.error BeefyClientError.InvalidRootHash, st)) ∧
    (∀ st' v, ingest_mmr_root_with_proof h u st f = (Except.ok (), st') →
      getRaw u.signed_commitment.commitment.payload MMR_ROOT_ID = some v →
      st'.mmr_root_hash = v) := by
  refine ⟨fun hro => ?_, fun v hro hvlen => ?_, fun st' v Hok hro => ?_⟩
  · rcases hgate with hv | hv <;>
      simp [ingest_mmr_root_with_proof, hc, hn, hv, hro, hvsid]
  · rcases hgate with hv | hv <;>
      simp [ingest_mmr_root_with_proof, hc, hn, hv, hro, hvsid, hvlen]
  · obtain ⟨_, _, _, root, l, changed, hro2, hlen2, hre, hbranch, Htail⟩ :=
      ingest_ok_inversion h u st f st' Hok
    obtain ⟨_, _, _, _, _, hfalse, htrue⟩ :=
      ingestAfterAuthorities_ok_inversion h u st f root changed st' Htail
    have hrv : root = v := by
      rw [hro] at hro2
      exact (Option.some.inj hro2).symm
    cases hch : changed
    · rw [hfalse hch, hrv]
    · rw [(htrue hch).2.2, hrv]

/-- Witness for C7 at concrete inputs: the missing entry rejects with
`InvalidMmrUpdate`, the 31-byte value rejects with `InvalidRootHash`, and
the successful `u0` run stores the payload value as the MMR root. -/
theorem ingest_payload_extraction_witness :
    ingest_mmr_root_with_proof trivialHost uNoPayload st0 noFaults =
      (Except.error BeefyClientError.InvalidMmrUpdate, st0) ∧
    ingest_mmr_root_with_proof trivialHost uShortRoot st0 noFaults =
      (Except.error BeefyClientError.InvalidRootHash, st0) ∧
    (⟨1, List.replicate 32 1, set0, set1⟩ : StoreState).mmr_root_hash =
      List.replicate 32 1 :=
  ⟨(ingest_payload_extraction trivialHost uNoPayload st0 noFaults rfl rfl
      (Or.inl (by decide)) (by decide)).1 rfl,
   (ingest_payload_extraction trivialHost uShortRoot st0 noFaults rfl rfl
      (Or.inl (by decide)) (by decide)).2.1 (List.replicate 31 1) rfl
      (by decide),
   (ingest_payload_extraction trivialHost u0 st0 noFaults rfl rfl
      (Or.inl (by decide)) (by decide)).2.2
      ⟨1, List.replicate 32 1, set0, set1⟩ (List.replicate 32 1) rfl rfl⟩

/-- Claim C8: MMR verification (lib.rs:158-180).  A successful ingest
implies the `verify_leaf_proof` oracle accepted, with keccak-256 hashing,
the node `DataOrHash.Data (scale_encode leaf)` and the proof record built
with `leaf_index = latest_mmr_leaf_with_index.index` and
`leaf_count = index + 1`, under the payload-carried root; and whenever that
call returns `false` (the height gate having passed), the run rejects with
`InvalidMmrProof` leaving the state untouched. -/
theorem ingest_mmr_proof_check (h : Host) (u : MmrUpdateProof)
    (st : StoreState) (f : Faults) :
    (∀ st', ingest_mmr_root_with_proof h u st f = (Except.ok (), st') →
      ∃ root,
        getRaw u.signed_commitment.commitment.payload MMR_ROOT_ID = some root ∧
        h.verify_leaf_proof h.keccak_256 root
          (DataOrHash.Data (h.encode_leaf u.latest_mmr_leaf_with_index.leaf))
          ⟨u.latest_mmr_leaf_with_index.index,
           u.latest_mmr_leaf_with_index.index + 1, u.mmr_proof⟩ = true) ∧
    (∀ root changed,
      f.read_height_fails = false →
      st.latest_beefy_height < u.signed_commitment.commitment.block_number →
      h.verify_leaf_proof h.keccak_256 root
        (DataOrHash.Data (h.encode_leaf u.latest_mmr_leaf_with_index.leaf))
        ⟨u.latest_mmr_leaf_with_index.index,
         u.latest_mmr_leaf_with_index.index + 1, u.mmr_proof⟩ = false →
      ingestAfterAuthorities h u st f root changed =
        (Except.error BeefyClientError.InvalidMmrProof, st)) := by
  constructor
  · intro st' H
    obtain ⟨_, _, _, root, l, changed, hro, hlen, hre, hbranch, Htail⟩ :=
      ingest_ok_inversion h u st f st' H
    obtain ⟨_, _, hmmr, _⟩ :=
      ingestAfterAuthorities_ok_inversion h u st f root changed st' Htail
    exact ⟨root, hro, hmmr⟩
  · intro root changed hrh hbn hver
    simp [ingestAfterAuthorities, hrh, hver, Nat.not_le.mpr hbn]

/-- Witness for C8: the successful `u0` run implies the oracle accepted at
`leaf_count = index + 1 = 1`, and a host whose MMR oracle always rejects
makes the tail fail with `InvalidMmrProof` at the same concrete input. -/
theorem ingest_mmr_proof_check_witness :
    (∃ root,
      getRaw u0.signed_commitment.commitment.payload MMR_ROOT_ID = some root ∧
      trivialHost.verify_leaf_proof trivialHost.keccak_256 root
        (DataOrHash.Data (trivialHost.encode_leaf
          u0.latest_mmr_leaf_with_index.leaf))
        ⟨u0.latest_mmr_leaf_with_index.index,
         u0.latest_mmr_leaf_with_index.index + 1, u0.mmr_proof⟩ = true) ∧
    ingestAfterAuthorities rejectMmrHost u0 st0 noFaults zeros32 false =
      (Except.error BeefyClientError.InvalidMmrProof, st0) :=
  ⟨(ingest_mmr_proof_check trivialHost u0 st0 noFaults).1
      ⟨1, List.replicate 32 1, set0, set1⟩ rfl,
   (ingest_mmr_proof_check rejectMmrHost u0 st0 noFaults).2 zeros32 false
      rfl (by decide) rfl⟩

/-- Claim C5: signature recovery over
`msg = keccak_256(scale_encode(commitment))` (lib.rs:77-107).
(a) A `Some` entry whose raw length is not 65 is dropped silently — the
pipeline behaves as if the slot were `None`, with no error;
(b) if any kept (65-byte) entry fails recovery, the whole ingest aborts
with `InvalidSignature` (given that the earlier gates pass);
(c) a successful recovery pairs each kept entry, in order, with its
recovered address at the entry's positional index, and every kept entry is
a 65-byte `Some` slot of the original sequence at that index (the ingest
then hashes each address with keccak-256 to form the authority leaves, see
the Merkle-call shapes in the C4 theorem). -/
theorem ingest_signature_recovery (h : Host) (u : MmrUpdateProof)
    (st : StoreState) (f : Faults)
    (hc : f.read_current_fails = false) (hn : f.read_next_fails = false)
    (hgate : validate_sigs_against_threshold st.current_authority_set
        u.signed_commitment.signatures.length = true ∨
      validate_sigs_against_threshold st.next_authority_set
        u.signed_commitment.signatures.length = true)
    (hvsid : ¬(st.current_authority_set.id ≠
        u.signed_commitment.commitment.validator_set_id ∧
      st.next_authority_set.id ≠
        u.signed_commitment.commitment.validator_set_id))
    (root : Bytes)
    (hro : getRaw u.signed_commitment.commitment.payload MMR_ROOT_ID = some root)
    (hlen : root.length = HASH_LENGTH) :
    (∀ j s, u.signed_commitment.signatures[j]? = some (some s) →
      s.length ≠ SIGNATURE_LEN →
      recover_authorities h
          (h.keccak_256 (h.encode_commitment u.signed_commitment.commitment))
          (u.signed_commitment.signatures.set j none) =
        recover_authorities h
          (h.keccak_256 (h.encode_commitment u.signed_commitment.commitment))
          u.signed_commitment.signatures) ∧
    ((∃ p ∈ filterSignatures u.signed_commitment.signatures,
        h.recover_to_address p.2
          (h.keccak_256 (h.encode_commitment u.signed_commitment.commitment)) =
          none) →
      ingest_mmr_root_with_proof h u st f =
        (Except.error BeefyClientError.InvalidSignature, st)) ∧
    (∀ out, recover_authorities h
        (h.keccak_256 (h.encode_commitment u.signed_commitment.commitment))
        u.signed_commitment.signatures = Except.ok out →
      List.Forall₂ (fun p q => p.1 = q.1 ∧
          h.recover_to_address p.2
            (h.keccak_256 (h.encode_commitment u.signed_commitment.commitment)) =
            some q.2)
        (filterSignatures u.signed_commitment.signatures) out) ∧
    (∀ p ∈ filterSignatures u.signed_commitment.signatures,
      u.signed_commitment.signatures[p.1]? = some (some p.2) ∧
        p.2.length = SIGNATURE_LEN) := by
  refine ⟨fun j s hj hslen => ?_, fun hex => ?_, fun out hout => ?_,
    fun p hp => ?_⟩
  · unfold recover_authorities
    rw [filterSignatures_set_none u.signed_commitment.signatures j s hj hslen]
  · have hrec : recover_authorities h
        (h.keccak_256 (h.encode_commitment u.signed_commitment.commitment))
        u.signed_commitment.signatures =
        Except.error BeefyClientError.InvalidSignature :=
      collectRecovered_error_of_mem h _ _ hex
    rcases hgate with hv | hv <;>
      simp [ingest_mmr_root_with_proof, hc, hn, hv, hvsid, hro, hlen, hrec]
  · exact (collectRecovered_ok_iff h _ _ out).mp hout
  · have := filterSignatures_mem_aux u.signed_commitment.signatures 0 p
      (by simpa [filterSignatures, List.enum] using hp)
    simpa using this.2

/-- Witness for C5 at concrete inputs: the 64-byte signature of `uShortSig`
is dropped exactly as if the slot were `None`; and with a host that fails
recovery, the 65-byte signature of `uFullSig` aborts the ingest with
`InvalidSignature`. -/
theorem ingest_signature_recovery_witness :
    recover_authorities trivialHost
        (trivialHost.keccak_256 (trivialHost.encode_commitment
          uShortSig.signed_commitment.commitment))
        (uShortSig.signed_commitment.signatures.set 0 none) =
      recover_authorities trivialHost
        (trivialHost.keccak_256 (trivialHost.encode_commitment
          uShortSig.signed_commitment.commitment))
        uShortSig.signed_commitment.signatures ∧
    ingest_mmr_root_with_proof rejectRecoverHost uFullSig st0 noFaults =
      (Except.error BeefyClientError.InvalidSignature, st0) :=
  ⟨(ingest_signature_recovery trivialHost uShortSig st0 noFaults rfl rfl
      (Or.inl (by decide)) (by decide) (List.replicate 32 1) rfl rfl).1
      0 (List.replicate 64 7) rfl (by decide),
   (ingest_signature_recovery rejectRecoverHost uFullSig st0 noFaults rfl rfl
      (Or.inl (by decide)) (by decide) (List.replicate 32 1) rfl rfl).2.1
      ⟨(0, List.replicate 65 7), by decide, rfl⟩⟩

/-- Claim C9: `ingest_mmr_root_with_proof` is deterministic.  `IngestRun`
axiomatizes the possible runs of the source (one constructor per control
path, recording the guard values); any two runs on an identical
`MmrUpdateProof`, identical pre-call storage contents and identical storage
fault behaviour produce the same result and the same post-call storage,
namely the value of the ingest function itself. -/
theorem ingest_deterministic (h : Host) (u : MmrUpdateProof)
    (st : StoreState) (f : Faults)
    (o1 o2 : Except BeefyClientError Unit × StoreState)
    (H1 : IngestRun h u st f o1) (H2 : IngestRun h u st f o2) :
    o1 = o2 ∧ o1 = ingest_mmr_root_with_proof h u st f :=
  ⟨(IngestRun_eq H1).symm.trans (IngestRun_eq H2), (IngestRun_eq H1).symm⟩

/-- Witness for C9: two concrete derivations of the same run (the
threshold-rejection path of `uNoSigs` from `st0`) coincide and equal the
function value. -/
theorem ingest_deterministic_witness :
    ((Except.error BeefyClientError.InvalidMmrUpdate, st0) :
        Except BeefyClientError Unit × StoreState) =
      (Except.error BeefyClientError.InvalidMmrUpdate, st0) ∧
    ((Except.error BeefyClientError.InvalidMmrUpdate, st0) :
        Except BeefyClientError Unit × StoreState) =
      ingest_mmr_root_with_proof trivialHost uNoSigs st0 noFaults :=
  ingest_deterministic trivialHost uNoSigs st0 noFaults _ _
    (IngestRun.thresholdFail rfl rfl (by decide) (by decide))
    (IngestRun.thresholdFail rfl rfl (by decide) (by decide))

end Beefy
